import Mathlib

/-!
The scrape orchestration engine of docker_exporter

A shallow embedding of `collector/*.go` and of the scraper selection of `main.go`.

* The strings that the daemon sends are decoded from JSON, hence valid UTF-8: they are
  Lean `String`s.  `len` counts the bytes of the encoding and `s[:12]` keeps twelve bytes;
  the slice is text only when its last byte ends a character (`GoString`).
* Every metric value in the source is `float64(e)` for an integer expression `e`, the
  literal `0.5`, or a duration reading.  `toFloat64` is the conversion of a 64 bit
  integer: it rounds to 53 significant bits, ties to even, and its result is again an
  integer, kept as such in `Value`.
* A goroutine is the list of the atomic actions it performs, in program order.  An action
  `panic` is the last thing a goroutine does, and it ends the whole process.
* Goroutines that run concurrently are merged by `interleave`, driven by an arbitrary
  schedule.  Theorems quantify over all schedules.
* The answers of the Docker daemon during one cycle are the fields of `World`.
* `prometheus.MustNewConstMetric` panics when a label value is not valid UTF-8.  At
  every call of the source the number of label values is that of the descriptor.  The
  counters and gauges of `client_golang` are numbers without bound.
-/

namespace DockerExporter

/-! ## Go strings -/

/-- The Go builtin `len` on a string: the number of bytes of its UTF-8 encoding. -/
def len (s : String) : Nat :=
  (s.data.map Char.utf8Size).sum

/-- A string computed by the program: text, that is valid UTF-8, or bytes that are not
valid UTF-8, as a slice that ends inside a character of several bytes. -/
inductive GoString
  | text (s : String)
  | invalid
  deriving DecidableEq, Repr

/-- The first `n` bytes of the encoding of a list of characters: `none` when there are
fewer than `n` bytes. -/
def sliceChars : List Char → Nat → Option GoString
  | _, 0 => some (GoString.text "")
  | [], _ + 1 => none
  | c :: cs, n + 1 =>
    if c.utf8Size ≤ n + 1 then
      match sliceChars cs (n + 1 - c.utf8Size) with
      | some (GoString.text t) => some (GoString.text (String.mk (c :: t.data)))
      | r => r
    else some GoString.invalid

/-- The Go expression `s[:n]`: `none` stands for the panic "slice bounds out of range". -/
def sliceTo (s : String) (n : Nat) : Option GoString :=
  sliceChars s.data n

/-- Splitting a byte sequence around every occurrence of one separator byte. -/
def splitChars (sep : Char) : List Char → List (List Char)
  | [] => [[]]
  | c :: cs =>
    if c = sep then [] :: splitChars sep cs
    else
      match splitChars sep cs with
      | [] => [[c]]
      | h :: t => (c :: h) :: t

/-- The Go call `strings.Split(s, sep)` for a separator of one byte. -/
def Split (s : String) (sep : Char) : List String :=
  (splitChars sep s.data).map String.mk

/-- The Go call `strings.Trim(s, cutset)` for a cutset of one byte. -/
def Trim (s : String) (cut : Char) : String :=
  String.mk (((s.data.dropWhile (fun c => c == cut)).reverse.dropWhile (fun c => c == cut)).reverse)

/-! ## Metric descriptors and samples -/

/-- The metric descriptors of the package, under the names of their Go variables
(the five fields of `Metrics` included). -/
inductive Desc
  | scrapeDurationDesc
  | containers
  | restart_count
  | running_state
  | start_time_seconds
  | inspect_duration_seconds
  | cpu_used_total
  | cpu_capacity_total
  | memory_used_bytes
  | network_in_bytes
  | network_out_bytes
  | disk_read_bytes
  | disk_write_bytes
  | image_size
  | TotalScrapes
  | ScrapeErrors
  | Error
  | DockerUp
  | SuccessfulProbeTime
  deriving DecidableEq, Repr

/-- The value of a sample. -/
inductive Value
  /-- The float64 number whose value is the integer `n`. -/
  | float64 (n : Int)
  /-- The literal `float64(0.5)`. -/
  | half
  /-- A reading `time.Since(t).Seconds()`. -/
  | seconds
  /-- The histogram `inspect_duration_seconds`, sent as a metric of its own. -/
  | histogram
  deriving DecidableEq, Repr

/-- The number of binary digits that `n` has beyond 53, counted up to `fuel`. -/
def excessBits : Nat → Nat → Nat
  | 0, _ => 0
  | fuel + 1, n => if n < 2 ^ 53 then 0 else excessBits fuel (n / 2) + 1

/-- Rounding a natural number below 2^64 to 53 significant bits, ties to even: the
float64 number nearest to it. -/
def roundNat (n : Nat) : Nat :=
  if n < 2 ^ 53 then n
  else
    let e := excessBits 64 n
    let q := n / 2 ^ e
    let r := n % 2 ^ e
    let half := 2 ^ (e - 1)
    if r < half then q * 2 ^ e
    else if r = half ∧ q % 2 = 0 then q * 2 ^ e
    else (q + 1) * 2 ^ e

/-- The conversion `float64(n)` of a 64 bit integer `n`. -/
def toFloat64 (n : Int) : Value :=
  Value.float64 (if n < 0 then -(roundNat n.natAbs : Int) else (roundNat n.natAbs : Int))

/-- One metric written to the channel `ch`: descriptor, value, label values. -/
structure Sample where
  desc : Desc
  value : Value
  labels : List String
  deriving DecidableEq, Repr

/-! ## Goroutines as traces of atomic actions -/

/-- The atomic actions of the goroutines of one cycle. -/
inductive Action
  /-- The channel send `ch <- m`. -/
  | send (s : Sample)
  /-- The call `e.metrics.TotalScrapes.Inc()`. -/
  | incTotalScrapes
  /-- The call `e.metrics.DockerUp.Set(v)`. -/
  | setDockerUp (v : Nat)
  /-- The call `e.metrics.Error.Set(v)`. -/
  | setError (v : Nat)
  /-- The call `e.metrics.ScrapeErrors.WithLabelValues(label).Inc()`. -/
  | incScrapeErrors (label : String)
  /-- The call `e.metrics.SuccessfulProbeTime.SetToCurrentTime()` at clock reading `t`. -/
  | setProbeTime (t : Nat)
  /-- The call `scraper.Scrape(ctx, e.client, ch)` of the scraper with this name. -/
  | invoke (name : String)
  /-- A line written to the log. -/
  | log
  /-- A runtime panic: index or slice bound out of range, nil pointer dereference. -/
  | panic
  deriving DecidableEq, Repr

/-- The label values of a metric when all of them are valid UTF-8. -/
def labelValues : List GoString → Option (List String)
  | [] => some []
  | GoString.text s :: ls => (labelValues ls).map (fun r => s :: r)
  | GoString.invalid :: _ => none

/-- The statement `ch <- prometheus.MustNewConstMetric(desc, prometheus.GaugeValue, value,
labelValues...)`: the constructor panics when a label value is not valid UTF-8.  Where
the label values of the source are literals or scraper names the send is written out. -/
def MustNewConstMetric (desc : Desc) (value : Value) (ls : List GoString) : Action :=
  match labelValues ls with
  | some labels => Action.send ⟨desc, value, labels⟩
  | none => Action.panic

/-- Sequential composition inside one goroutine: the continuation runs only when the
first part did not panic. -/
def andThen (a b : List Action) : List Action :=
  if Action.panic ∈ a then a else a ++ b

/-- Remove the `i`-th list and return its first action, lists that are finished being
skipped when the index reaches them. -/
def takeAt {α : Type} : Nat → List (List α) → Option (α × List (List α))
  | _, [] => none
  | 0, (a :: t) :: ts => some (a, t :: ts)
  | 0, [] :: ts => (takeAt 0 ts).map fun r => (r.1, [] :: r.2)
  | n + 1, t :: ts => (takeAt n ts).map fun r => (r.1, t :: r.2)

/-- The merge of concurrently running goroutines under a schedule: each entry of the
schedule names the goroutine that performs its next action; when the schedule is used up
the goroutines that are left run to completion one after the other. -/
def interleave {α : Type} : List Nat → List (List α) → List α
  | [], ts => ts.flatten
  | i :: σ, ts =>
    match takeAt i ts with
    | some r => r.1 :: interleave σ r.2
    | none => interleave σ ts

/-! ## The Docker client: what the daemon answers during one cycle -/

/-- A Go `error` value: `none` is `nil`. -/
abbrev error := Option String

/-- The fields of `types.Info` read by the info scraper. -/
structure Info where
  Containers : Int
  ContainersRunning : Int
  ContainersStopped : Int
  deriving DecidableEq, Repr

/-- The field of `types.Container` read by the container scraper. -/
structure Container where
  ID : String
  deriving DecidableEq, Repr

/-- The fields of `types.ContainerState` read by `collectStatus`. -/
structure ContainerState where
  Running : Bool
  Restarting : Bool
  StartedAt : String
  deriving DecidableEq, Repr

/-- The fields of `types.ContainerJSONBase` read by `collectStatus`; `State` is a pointer. -/
structure ContainerJSONBase where
  ID : String
  Name : String
  RestartCount : Int
  State : Option ContainerState
  deriving DecidableEq, Repr

/-- The type `types.ContainerJSON`: it embeds a pointer to its base record, which is nil
in the zero value `types.ContainerJSON{}`. -/
structure ContainerJSON where
  ContainerJSONBase : Option ContainerJSONBase
  deriving DecidableEq, Repr

/-- The fields of `types.NetworkStats` read by `collectResource` (both `uint64`). -/
structure NetworkStats where
  RxBytes : Nat
  TxBytes : Nat
  deriving DecidableEq, Repr

/-- The fields of `types.BlkioStatEntry` read by `collectResource`. -/
structure BlkioStatEntry where
  Op : String
  Value : Nat
  deriving DecidableEq, Repr

/-- The fields of `types.StatsJSON` read by `collectResource`.  The counters are `uint64`.
`Networks` is a Go map, nil when absent, listed here in the order in which `range`
visits it. -/
structure StatsJSON where
  Name : String
  ID : String
  TotalUsage : Nat
  SystemUsage : Nat
  MemoryUsage : Nat
  Networks : Option (List (String × NetworkStats))
  IoServiceBytesRecursive : List BlkioStatEntry
  deriving DecidableEq, Repr

/-- What happens to one `ContainerStats` request up to `json.Unmarshal`. -/
inductive StatsResponse
  /-- The call `client.ContainerStats` returns an error. -/
  | requestErr
  /-- The call `ioutil.ReadAll(res.Body)` returns an error. -/
  | readErr
  /-- The call `json.Unmarshal(body, &stats)` returns an error. -/
  | parseErr
  /-- The body is parsed into `stats`. -/
  | parsed (stats : StatsJSON)
  deriving DecidableEq, Repr

/-- The fields of `types.ImageSummary` read by the image scraper. -/
structure ImageSummary where
  ID : String
  RepoTags : List String
  Size : Int
  deriving DecidableEq, Repr

/-- Everything outside the program that one cycle observes: the results of the client
calls, as the pairs `(value, err)` that Go returns, the library function `time.Parse`
for the layout `time.RFC3339Nano` (its result in Unix seconds), and the clock. -/
structure World where
  Ping : error
  Info : Info × error
  ContainerList : List Container × error
  ContainerInspect : String → ContainerJSON × error
  ContainerStats : String → StatsResponse
  ImageList : List ImageSummary × error
  parseRFC3339Nano : String → Option Int
  now : Nat

/-- Two to the power 64, the modulus of `uint64` arithmetic. -/
def uint64Size : Nat := 2 ^ 64

/-! ## docker.go -/

/-- The function `getNameByInspect`: `none` stands for a panic (nil pointer dereference
on the embedded base record, or `container.ID[:12]` out of range). -/
def getNameByInspect (container : ContainerJSON) : Option GoString :=
  match container.ContainerJSONBase with
  | none => none
  | some b => if b.Name ≠ "" then some (GoString.text (Trim b.Name '/')) else sliceTo b.ID 12

/-- The function `getNameByStatus`: `none` stands for the panic of `stats.ID[:12]`. -/
def getNameByStatus (stats : StatsJSON) : Option GoString :=
  if stats.Name ≠ "" then some (GoString.text (Trim stats.Name '/')) else sliceTo stats.ID 12

/-! ## container.go -/

/-- The statement `log.Errorf("... %s err: %s", id[:12], err)`: the slice is taken before
the line is written. -/
def logErrorf (id : String) : List Action :=
  match sliceTo id 12 with
  | none => [Action.panic]
  | some _ => [Action.log]

/-- The loop `for _, networkStats := range stats.Networks` with its two `uint64`
accumulators `in` and `out`. -/
def sumNetworks : List (String × NetworkStats) → Nat × Nat → Nat × Nat
  | [], acc => acc
  | (_, networkStats) :: rest, acc =>
    sumNetworks rest ((acc.1 + networkStats.RxBytes) % uint64Size,
      (acc.2 + networkStats.TxBytes) % uint64Size)

/-- The loop `for _, entry := range ioEntrys` with its two `uint64` accumulators `read`
and `write`. -/
def sumEntries : List BlkioStatEntry → Nat × Nat → Nat × Nat
  | [], acc => acc
  | entry :: rest, acc =>
    let read := if entry.Op = "read" then (acc.1 + entry.Value) % uint64Size else acc.1
    let write := if entry.Op = "write" then (acc.2 + entry.Value) % uint64Size else acc.2
    sumEntries rest (read, write)

/-- The function `collectResource`. -/
def collectResource (w : World) (id : String) : List Action :=
  match w.ContainerStats id with
  | StatsResponse.requestErr => logErrorf id
  | StatsResponse.readErr => logErrorf id
  | StatsResponse.parseErr => logErrorf id
  | StatsResponse.parsed stats =>
    match getNameByStatus stats with
    | none => [Action.panic]
    | some name =>
      andThen
        [MustNewConstMetric Desc.cpu_used_total (toFloat64 stats.TotalUsage) [name]]
        ([MustNewConstMetric Desc.cpu_capacity_total (toFloat64 stats.SystemUsage) [name],
          MustNewConstMetric Desc.memory_used_bytes (toFloat64 stats.MemoryUsage) [name]]
        ++ (match stats.Networks with
            | none =>
              [MustNewConstMetric Desc.network_in_bytes (Value.float64 0) [name],
                MustNewConstMetric Desc.network_out_bytes (Value.float64 0) [name]]
            | some networks =>
              let total := sumNetworks networks (0, 0)
              [MustNewConstMetric Desc.network_in_bytes (toFloat64 total.1) [name],
                MustNewConstMetric Desc.network_out_bytes (toFloat64 total.2) [name]])
        ++ (if stats.IoServiceBytesRecursive.length ≠ 0 then
              let rw := sumEntries stats.IoServiceBytesRecursive (0, 0)
              [MustNewConstMetric Desc.disk_read_bytes (toFloat64 rw.1) [name],
                MustNewConstMetric Desc.disk_write_bytes (toFloat64 rw.2) [name]]
            else []))

/-- The function `collectStatus`, the goroutine of one container.  After a failed inspect
the error is logged and the function goes on with the value that was returned. -/
def collectStatus (w : World) (id : String) : List Action :=
  let container := (w.ContainerInspect id).1
  let err := (w.ContainerInspect id).2
  andThen (if err.isSome then logErrorf id else []) <|
    match getNameByInspect container, container.ContainerJSONBase with
    | some name, some b =>
      andThen
        [MustNewConstMetric Desc.restart_count (toFloat64 b.RestartCount) [name]]
        (match b.State with
          | none => [Action.panic]
          | some state =>
            if state.Running then
              MustNewConstMetric Desc.running_state (Value.float64 1) [name] ::
                ((match w.parseRFC3339Nano state.StartedAt with
                  | some timestamp =>
                    [MustNewConstMetric Desc.start_time_seconds (toFloat64 timestamp) [name]]
                  | none => [])
                ++ collectResource w id)
            else if state.Restarting then
              [MustNewConstMetric Desc.running_state Value.half [name]]
            else
              [MustNewConstMetric Desc.running_state (Value.float64 0) [name]])
    | _, _ => [Action.panic]

/-- How a call of `Scrape` ends: it returns an `error` (nil or not), or a goroutine
panicked and the call never returns. -/
inductive Outcome
  | returned (err : error)
  | panicked
  deriving DecidableEq, Repr

/-- The call of `Scrape` returned an error that is not nil. -/
def Outcome.failed : Outcome → Bool
  | Outcome.returned (some _) => true
  | _ => false

/-- The method `(*ContainerScraper).Scrape`: the trace of the call with the goroutines it
starts, merged by the schedule `σ`, and its outcome.  `wg.Wait()` is the join. -/
def ContainerScraper.Scrape (w : World) (σ : List Nat) : List Action × Outcome :=
  if w.ContainerList.2.isSome then ([], Outcome.returned w.ContainerList.2)
  else
    let tasks := interleave σ (w.ContainerList.1.map fun c => collectStatus w c.ID)
    if Action.panic ∈ tasks then (tasks, Outcome.panicked)
    else
      (tasks ++ [Action.send ⟨Desc.inspect_duration_seconds, Value.histogram, []⟩],
        Outcome.returned none)

/-! ## info.go -/

/-- The method `(*InfoScraper).Scrape`. -/
def InfoScraper.Scrape (w : World) : List Action × Outcome :=
  let info := w.Info.1
  let err := w.Info.2
  ((if err.isSome then [Action.log] else []) ++
    [Action.send ⟨Desc.containers, toFloat64 info.Containers, ["total"]⟩,
      Action.send ⟨Desc.containers, toFloat64 info.ContainersRunning, ["running"]⟩,
      Action.send ⟨Desc.containers, toFloat64 info.ContainersStopped, ["stopped"]⟩],
    Outcome.returned none)

/-! ## image.go -/

/-- The body of the loop of `(*ImageScraper).Scrape`: the send of the size sample, or a
panic of one of the index or slice expressions or of `MustNewConstMetric`. -/
def imageStep (image : ImageSummary) : Action :=
  match (Split image.ID ':')[1]? with
  | none => Action.panic
  | some hex =>
    match sliceTo hex 12 with
    | none => Action.panic
    | some id =>
      match image.RepoTags[0]? with
      | none => Action.panic
      | some imageName =>
        let repoTag := Split imageName ':'
        match repoTag[0]?, repoTag[1]? with
        | some repo, some tag =>
          MustNewConstMetric Desc.image_size (toFloat64 image.Size)
            [id, GoString.text repo, GoString.text tag]
        | _, _ => Action.panic

/-- The loop `for _, image := range images` of `(*ImageScraper).Scrape`. -/
def imageLoop : List ImageSummary → List Action
  | [] => []
  | image :: rest => andThen [imageStep image] (imageLoop rest)

/-- The method `(*ImageScraper).Scrape`. -/
def ImageScraper.Scrape (w : World) : List Action × Outcome :=
  if w.ImageList.2.isSome then ([], Outcome.returned w.ImageList.2)
  else
    let tr := imageLoop w.ImageList.1
    if Action.panic ∈ tr then (tr, Outcome.panicked) else (tr, Outcome.returned w.ImageList.2)

/-! ## scraper.go -/

/-- The implementations of the interface `Scraper`. -/
inductive Scraper
  | InfoScraper
  | ContainerScraper
  | ImageScraper
  deriving DecidableEq, Repr

/-- The method `Name`. -/
def Scraper.Name : Scraper → String
  | Scraper.InfoScraper => "info"
  | Scraper.ContainerScraper => "container"
  | Scraper.ImageScraper => "image"

/-- The method `Scrape`, dispatched on the implementation. -/
def Scraper.Scrape (s : Scraper) (w : World) (σ : List Nat) : List Action × Outcome :=
  match s with
  | Scraper.InfoScraper => InfoScraper.Scrape w
  | Scraper.ContainerScraper => ContainerScraper.Scrape w σ
  | Scraper.ImageScraper => ImageScraper.Scrape w

/-- The registry `Scrapers`, a map from scraper to "enabled by default". -/
def Scrapers : List (Scraper × Bool) :=
  [(Scraper.InfoScraper, true), (Scraper.ContainerScraper, true), (Scraper.ImageScraper, true)]

/-! ## exporter.go -/

/-- The struct `Metrics`.  Counters and gauges hold the numbers given to them;
`ScrapeErrors` is the counter vector, one counter per label value used so far. -/
structure Metrics where
  TotalScrapes : Nat
  ScrapeErrors : List (String × Nat)
  Error : Nat
  DockerUp : Nat
  SuccessfulProbeTime : Nat
  deriving DecidableEq, Repr

/-- The value of the counter of `ScrapeErrors` with this label (0 when it was never used). -/
def counterValue (label : String) : List (String × Nat) → Nat
  | [] => 0
  | (l, n) :: rest => if l = label then n else counterValue label rest

/-- The call `WithLabelValues(label).Inc()` on a counter vector. -/
def counterInc (label : String) : List (String × Nat) → List (String × Nat)
  | [] => [(label, 1)]
  | (l, n) :: rest => if l = label then (l, n + 1) :: rest else (l, n) :: counterInc label rest

/-- The struct `Exporter`; the client is the `World` given to the methods. -/
structure Exporter where
  metrics : Metrics
  scrapers : List Scraper
  deriving DecidableEq, Repr

/-- The goroutine `go func(scraper Scraper) { ... }(scraper)` of `scrape`. -/
def scraperTask (w : World) (σ : List Nat) (scraper : Scraper) : List Action :=
  let label := scraper.Name
  match scraper.Scrape w σ with
  | (tr, Outcome.panicked) => Action.invoke label :: tr
  | (tr, Outcome.returned err) =>
    Action.invoke label :: tr
      ++ (if err.isSome then
            [Action.log, Action.incScrapeErrors label, Action.setError 1]
          else [])
      ++ [Action.send ⟨Desc.scrapeDurationDesc, Value.seconds, [label]⟩]

/-- The schedules of one cycle: `top` merges the goroutine of `scrape` with the
goroutines of the scrapers, `containers` merges the goroutines of the containers. -/
structure Schedule where
  top : List Nat
  containers : List Nat
  deriving DecidableEq, Repr

/-- The method `(*Exporter).scrape`: the trace of the call.  After the `go` statements
the calling goroutine sets the probe time while the scraper goroutines run; the deferred
`wg.Wait()` is the join. -/
def Exporter.scrape (e : Exporter) (w : World) (sch : Schedule) : List Action :=
  Action.incTotalScrapes ::
    if w.Ping.isSome then
      [Action.log, Action.setDockerUp 0, Action.setError 1]
    else
      [Action.setDockerUp 1, Action.setError 0,
        Action.send ⟨Desc.scrapeDurationDesc, Value.seconds, ["ping"]⟩]
      ++ interleave sch.top
          ([Action.setProbeTime w.now] :: e.scrapers.map (scraperTask w sch.containers))

/-- The effect of one action other than `panic` on the metrics and on the channel. -/
def exec (st : Metrics × List Sample) : Action → Metrics × List Sample
  | Action.send s => (st.1, st.2 ++ [s])
  | Action.incTotalScrapes => ({ st.1 with TotalScrapes := st.1.TotalScrapes + 1 }, st.2)
  | Action.setDockerUp v => ({ st.1 with DockerUp := v }, st.2)
  | Action.setError v => ({ st.1 with Error := v }, st.2)
  | Action.incScrapeErrors label =>
    ({ st.1 with ScrapeErrors := counterInc label st.1.ScrapeErrors }, st.2)
  | Action.setProbeTime t => ({ st.1 with SuccessfulProbeTime := t }, st.2)
  | Action.invoke _ => st
  | Action.log => st
  | Action.panic => st

/-- Running a trace: `none` when a goroutine panics, which ends the process. -/
def run : Metrics × List Sample → List Action → Option (Metrics × List Sample)
  | st, [] => some st
  | _, Action.panic :: _ => none
  | st, a :: tr => run (exec st a) tr

/-- The metrics that `Collect` sends after `scrape` has returned. -/
def ownMetrics (m : Metrics) : List Sample :=
  [⟨Desc.TotalScrapes, Value.float64 m.TotalScrapes, []⟩,
    ⟨Desc.Error, Value.float64 m.Error, []⟩]
  ++ m.ScrapeErrors.map (fun c => ⟨Desc.ScrapeErrors, Value.float64 c.2, [c.1]⟩)
  ++ [⟨Desc.DockerUp, Value.float64 m.DockerUp, []⟩,
    ⟨Desc.SuccessfulProbeTime, Value.float64 m.SuccessfulProbeTime, []⟩]

/-- The method `(*Exporter).Collect`: one cycle.  It returns the exporter after the cycle
and the metrics written to the channel, or `none` when a goroutine panicked. -/
def Exporter.Collect (e : Exporter) (w : World) (sch : Schedule) :
    Option (Exporter × List Sample) :=
  match run (e.metrics, []) (e.scrape w sch) with
  | none => none
  | some st => some ({ e with metrics := st.1 }, st.2 ++ ownMetrics st.1)

/-! ## main.go -/

/-- The slice `enabledScrapers` of `main`: the keys of the map `scraperFlags`, in the
order `order` in which `range` visits them, that have their flag set. -/
def enabledScrapers (order : List Scraper) (flags : Scraper → Bool) : List Scraper :=
  order.filter flags

/-! ## Vocabulary of the statements -/

/-- The samples sent by a trace, in order. -/
def sends : List Action → List Sample
  | [] => []
  | Action.send s :: tr => s :: sends tr
  | _ :: tr => sends tr

/-- A sample of the info, container or image scraper. -/
def Desc.isData : Desc → Bool
  | Desc.containers => true
  | Desc.restart_count => true
  | Desc.running_state => true
  | Desc.start_time_seconds => true
  | Desc.inspect_duration_seconds => true
  | Desc.cpu_used_total => true
  | Desc.cpu_capacity_total => true
  | Desc.memory_used_bytes => true
  | Desc.network_in_bytes => true
  | Desc.network_out_bytes => true
  | Desc.disk_read_bytes => true
  | Desc.disk_write_bytes => true
  | Desc.image_size => true
  | _ => false

/-- A resource metric of a container. -/
def Desc.isResource : Desc → Bool
  | Desc.cpu_used_total => true
  | Desc.cpu_capacity_total => true
  | Desc.memory_used_bytes => true
  | Desc.network_in_bytes => true
  | Desc.network_out_bytes => true
  | Desc.disk_read_bytes => true
  | Desc.disk_write_bytes => true
  | _ => false

/-- An action of a scraper body: a data sample, a log line or a panic. -/
def Action.isBody : Action → Bool
  | Action.send s => s.desc.isData
  | Action.log => true
  | Action.panic => true
  | _ => false

/-- An action of `collectResource`: a resource sample, a log line or a panic. -/
def Action.isResourceBody : Action → Bool
  | Action.send s => s.desc.isResource
  | Action.log => true
  | Action.panic => true
  | _ => false

/-- A collector-duration sample with this label. -/
def isDuration (label : String) (s : Sample) : Bool :=
  s.desc = Desc.scrapeDurationDesc && s.labels = [label]

/-! ## Concrete daemons -/

/-- A container identifier as the daemon gives it: 64 hexadecimal digits. -/
def exampleID : String := "0123456789abcdef0123456789abcdef0123456789abcdef0123456789abcdef"

/-- A parsed resource usage snapshot with two network interfaces and two block entries. -/
def exampleStats : StatsJSON :=
  { Name := "/web", ID := exampleID, TotalUsage := 500, SystemUsage := 9000, MemoryUsage := 4096,
    Networks := some [("eth0", ⟨100, 7⟩), ("eth1", ⟨20, 3⟩)],
    IoServiceBytesRecursive := [⟨"read", 11⟩, ⟨"write", 5⟩] }

/-- The inspect result of a running container named `/web`. -/
def exampleContainer : ContainerJSONBase :=
  { ID := exampleID, Name := "/web", RestartCount := 2,
    State := some { Running := true, Restarting := false, StartedAt := "2020-01-01T00:00:00Z" } }

/-- A daemon that answers every call: one running container, one image. -/
def healthyWorld : World :=
  { Ping := none
    Info := (⟨1, 1, 0⟩, none)
    ContainerList := ([⟨exampleID⟩], none)
    ContainerInspect := fun _ => (⟨some exampleContainer⟩, none)
    ContainerStats := fun _ => StatsResponse.parsed exampleStats
    ImageList := ([⟨"sha256:abcdef1234567890", ["repo:tag"], 1024⟩], none)
    parseRFC3339Nano := fun s => if s = "2020-01-01T00:00:00Z" then some 1577836800 else none
    now := 1600000000 }

/-- The daemon of `healthyWorld` when the ping fails. -/
def unreachableWorld : World :=
  { healthyWorld with Ping := some "connection refused" }

/-- The daemon of `healthyWorld` when the container list call fails. -/
def listFailsWorld : World :=
  { healthyWorld with ContainerList := ([], some "list failed") }

/-- The daemon of `healthyWorld` when the info call fails and returns `types.Info{}`. -/
def infoFailsWorld : World :=
  { healthyWorld with Info := (⟨0, 0, 0⟩, some "info failed") }

/-- The daemon of `healthyWorld` when the inspect call fails and returns
`types.ContainerJSON{}`. -/
def inspectFailsWorld : World :=
  { healthyWorld with ContainerInspect := fun _ => (⟨none⟩, some "no such container") }

/-- The daemon of `healthyWorld` with this list of images. -/
def imagesWorld (images : List ImageSummary) : World :=
  { healthyWorld with ImageList := (images, none) }

/-- The daemon of `healthyWorld` with this inspect result for every container. -/
def inspectWorld (c : ContainerJSON) : World :=
  { healthyWorld with ContainerInspect := fun _ => (c, none) }

/-- The daemon of `healthyWorld` with this parsed snapshot for every container. -/
def statsWorld (stats : StatsJSON) : World :=
  { healthyWorld with ContainerStats := fun _ => StatsResponse.parsed stats }

/-- An exporter that was never scraped, with the three scrapers in registry order. -/
def freshExporter : Exporter :=
  { metrics := ⟨0, [], 0, 0, 0⟩
    scrapers := enabledScrapers (Scrapers.map Prod.fst) (fun _ => true) }

/-- A schedule that switches between the goroutines. -/
def exampleSchedule : Schedule := ⟨[1, 3, 0, 2, 2, 1], [0, 0, 1]⟩


/-- An inspect result without error whose name is empty and whose ID has three bytes. -/
def shortIdContainer : ContainerJSON :=
  ⟨some ⟨"abc", "", 0, some ⟨true, false, "2020-01-01T00:00:00Z"⟩⟩⟩

/-- An inspect result without error whose `State` pointer is nil. -/
def noStateContainer : ContainerJSON :=
  ⟨some ⟨exampleID, "/web", 0, none⟩⟩

/-- A parsed snapshot of two interfaces whose byte counters are `1 << 63` each. -/
def overflowStats : StatsJSON :=
  { exampleStats with
    Networks := some [("eth0", ⟨9223372036854775808, 9223372036854775808⟩),
      ("eth1", ⟨9223372036854775808, 9223372036854775808⟩)] }

/-- A parsed snapshot that carries neither name nor id, the parse of the body `{}`. -/
def anonymousStats : StatsJSON :=
  { Name := "", ID := "", TotalUsage := 0, SystemUsage := 0, MemoryUsage := 0,
    Networks := none, IoServiceBytesRecursive := [] }

/-- An image whose first repository tag names a registry with a port. -/
def registryImage : ImageSummary :=
  ⟨"sha256:abcdef1234567890", ["registry:5000/app:1.0"], 1024⟩

/-- An image without repository tags. -/
def untaggedImage : ImageSummary :=
  ⟨"sha256:abcdef1234567890", [], 1024⟩

/-- An ID of 15 bytes whose twelfth byte is the first of the two bytes of a character. -/
def cutID : String := "aaaaaaaaaaaézz"

/-- An inspect result without error whose name is empty and whose ID is `cutID`. -/
def cutIdContainer : ContainerJSON :=
  ⟨some ⟨cutID, "", 0, some ⟨true, false, "2020-01-01T00:00:00Z"⟩⟩⟩

/-- A parsed snapshot of one interface that received `1 << 53 + 1` bytes. -/
def roundingStats : StatsJSON :=
  { exampleStats with Networks := some [("eth0", ⟨9007199254740993, 1⟩)] }

/-- A parsed snapshot without name whose ID is `cutID`. -/
def cutIdStats : StatsJSON :=
  { anonymousStats with ID := cutID }

/-- A parsed snapshot of one interface that received `1 << 64 - 1` bytes. -/
def maxStats : StatsJSON :=
  { exampleStats with Networks := some [("eth0", ⟨18446744073709551615, 1⟩)] }

/-- The inspect result of a restarting container without name. -/
def namelessContainer : ContainerJSONBase :=
  ⟨exampleID, "", 3, some ⟨false, true, ""⟩⟩

/-- A parsed snapshot without name, with an absent interface map. -/
def namelessStats : StatsJSON :=
  { exampleStats with Name := "", Networks := none }

/-! ## Interleaving -/

theorem takeAt_perm {α : Type} (i : Nat) (ts : List (List α)) (r : α × List (List α))
    (h : takeAt i ts = some r) : ts.flatten.Perm (r.1 :: r.2.flatten) := by
  induction ts generalizing i r with
  | nil => simp [takeAt] at h
  | cons t ts ih =>
    cases i with
    | zero =>
      cases t with
      | nil =>
        simp only [takeAt, Option.map_eq_some'] at h
        obtain ⟨r', hr', rfl⟩ := h
        simpa using ih 0 r' hr'
      | cons a t =>
        simp only [takeAt, Option.some.injEq] at h
        subst h
        simp
    | succ n =>
      simp only [takeAt, Option.map_eq_some'] at h
      obtain ⟨r', hr', rfl⟩ := h
      have := ih n r' hr'
      simp only [List.flatten_cons]
      exact (List.Perm.append_left t this).trans List.perm_middle

theorem interleave_perm {α : Type} (σ : List Nat) (ts : List (List α)) :
    (interleave σ ts).Perm ts.flatten := by
  induction σ generalizing ts with
  | nil => simp [interleave]
  | cons i σ ih =>
    simp only [interleave]
    cases h : takeAt i ts with
    | none => exact ih ts
    | some r =>
      exact ((ih r.2).cons r.1).trans (takeAt_perm i ts r h).symm

theorem mem_interleave {α : Type} (σ : List Nat) (ts : List (List α)) (a : α) :
    a ∈ interleave σ ts ↔ ∃ t ∈ ts, a ∈ t := by
  rw [(interleave_perm σ ts).mem_iff, List.mem_flatten]

/-! ## Running a trace -/

theorem run_eq_none (st : Metrics × List Sample) (tr : List Action)
    (h : Action.panic ∈ tr) : run st tr = none := by
  induction tr generalizing st with
  | nil => simp at h
  | cons a tr ih =>
    cases a <;> simp_all [run]

theorem run_eq_some (st : Metrics × List Sample) (tr : List Action)
    (h : Action.panic ∉ tr) : run st tr = some (tr.foldl exec st) := by
  induction tr generalizing st with
  | nil => simp [run]
  | cons a tr ih =>
    cases a <;> simp_all [run]

theorem foldl_exec_snd (tr : List Action) (st : Metrics × List Sample) :
    (tr.foldl exec st).2 = st.2 ++ sends tr := by
  induction tr generalizing st with
  | nil => simp [sends]
  | cons a tr ih =>
    cases a <;> simp [ih, exec, sends]

theorem foldl_exec_totalScrapes (tr : List Action) (st : Metrics × List Sample) :
    (tr.foldl exec st).1.TotalScrapes = st.1.TotalScrapes + tr.count Action.incTotalScrapes := by
  induction tr generalizing st with
  | nil => simp
  | cons a tr ih =>
    cases a <;> simp [ih, exec, List.count_cons] <;> omega

theorem counterValue_counterInc (label l : String) (cs : List (String × Nat)) :
    counterValue l (counterInc label cs) = counterValue l cs + if label = l then 1 else 0 := by
  induction cs with
  | nil => by_cases h : label = l <;> simp [counterValue, counterInc, h]
  | cons c cs ih =>
    obtain ⟨k, n⟩ := c
    by_cases hk : k = label <;> by_cases hl : label = l <;>
      by_cases hkl : k = l <;> simp_all [counterValue, counterInc]

theorem foldl_exec_scrapeErrors (l : String) (tr : List Action) (st : Metrics × List Sample) :
    counterValue l (tr.foldl exec st).1.ScrapeErrors
      = counterValue l st.1.ScrapeErrors + tr.count (Action.incScrapeErrors l) := by
  induction tr generalizing st with
  | nil => simp
  | cons a tr ih =>
    cases a <;> simp [ih, exec, List.count_cons, counterValue_counterInc]
    rename_i label
    by_cases h : label = l <;> simp [h] <;> omega

theorem foldl_exec_dockerUp (tr : List Action) (st : Metrics × List Sample)
    (h : ∀ v, Action.setDockerUp v ∉ tr) : (tr.foldl exec st).1.DockerUp = st.1.DockerUp := by
  induction tr generalizing st with
  | nil => simp
  | cons a tr ih =>
    have h' : ∀ v, Action.setDockerUp v ∉ tr := fun v hv => h v (List.mem_cons_of_mem _ hv)
    cases a <;> simp [ih _ h', exec]
    rename_i v
    exact absurd (List.mem_cons_self _ _) (h v)

theorem foldl_exec_error (tr : List Action) (st : Metrics × List Sample)
    (h : ∀ v, Action.setError v ∈ tr → v = 1) :
    (tr.foldl exec st).1.Error = if Action.setError 1 ∈ tr then 1 else st.1.Error := by
  induction tr generalizing st with
  | nil => simp
  | cons a tr ih =>
    have h' : ∀ v, Action.setError v ∈ tr → v = 1 := fun v hv => h v (List.mem_cons_of_mem _ hv)
    cases a <;> simp [ih _ h', exec]
    rename_i v
    have : v = 1 := h v (List.mem_cons_self _ _)
    subst this
    simp

theorem foldl_exec_probeTime (tr : List Action) (st : Metrics × List Sample) (now : Nat)
    (h : ∀ t, Action.setProbeTime t ∈ tr → t = now) (hmem : Action.setProbeTime now ∈ tr) :
    (tr.foldl exec st).1.SuccessfulProbeTime = now := by
  induction tr generalizing st with
  | nil => simp at hmem
  | cons a tr ih =>
    have h' : ∀ t, Action.setProbeTime t ∈ tr → t = now :=
      fun t ht => h t (List.mem_cons_of_mem _ ht)
    by_cases hin : Action.setProbeTime now ∈ tr
    · simpa using ih (exec st a) h' hin
    · have ha : a = Action.setProbeTime now := by
        rcases List.mem_cons.1 hmem with h1 | h1
        · exact h1.symm
        · exact absurd h1 hin
      subst ha
      have hno : ∀ t, Action.setProbeTime t ∉ tr := by
        intro t ht
        have := h' t ht
        subst this
        exact hin ht
      clear ih h h' hmem hin
      simp only [List.foldl_cons]
      generalize hst : exec st (Action.setProbeTime now) = st'
      have hst' : st'.1.SuccessfulProbeTime = now := by rw [← hst]; simp [exec]
      clear hst
      induction tr generalizing st' with
      | nil => simpa using hst'
      | cons b tr ih2 =>
        have hno' : ∀ t, Action.setProbeTime t ∉ tr := fun t ht => hno t (List.mem_cons_of_mem _ ht)
        simp only [List.foldl_cons]
        apply ih2 hno'
        cases b <;> simp [exec, hst']
        rename_i t
        exact absurd (List.mem_cons_self _ _) (hno t)

/-! ## The bodies of the scrapers -/

theorem mem_andThen (x y : List Action) (a : Action) (h : a ∈ andThen x y) : a ∈ x ∨ a ∈ y := by
  unfold andThen at h
  split at h
  · exact Or.inl h
  · exact List.mem_append.1 h

theorem isData_of_isResource (d : Desc) (h : d.isResource = true) : d.isData = true := by
  cases d <;> simp_all [Desc.isResource, Desc.isData]

theorem isBody_of_isResourceBody (a : Action) (h : a.isResourceBody = true) :
    a.isBody = true := by
  cases a <;> simp_all [Action.isResourceBody, Action.isBody]
  exact isData_of_isResource _ h

theorem MustNewConstMetric_isBody (d : Desc) (v : Value) (ls : List GoString)
    (h : d.isData = true) : (MustNewConstMetric d v ls).isBody = true := by
  unfold MustNewConstMetric
  split <;> simp [Action.isBody, h]

theorem MustNewConstMetric_isResourceBody (d : Desc) (v : Value) (ls : List GoString)
    (h : d.isResource = true) : (MustNewConstMetric d v ls).isResourceBody = true := by
  unfold MustNewConstMetric
  split <;> simp [Action.isResourceBody, h]

theorem MustNewConstMetric_text (d : Desc) (v : Value) (t : String) :
    MustNewConstMetric d v [GoString.text t] = Action.send ⟨d, v, [t]⟩ := rfl

theorem MustNewConstMetric_invalid (d : Desc) (v : Value) :
    MustNewConstMetric d v [GoString.invalid] = Action.panic := rfl

theorem mem_sends (tr : List Action) (s : Sample) : s ∈ sends tr ↔ Action.send s ∈ tr := by
  induction tr with
  | nil => simp [sends]
  | cons a tr ih => cases a <;> simp [sends, ih]

theorem sends_append (x y : List Action) : sends (x ++ y) = sends x ++ sends y := by
  induction x with
  | nil => simp [sends]
  | cons a x ih => cases a <;> simp [sends, ih]

theorem logErrorf_isResourceBody (id : String) (a : Action) (h : a ∈ logErrorf id) :
    a.isResourceBody = true := by
  unfold logErrorf at h
  split at h <;> simp at h <;> subst h <;> rfl

theorem logErrorf_isBody (id : String) (a : Action) (h : a ∈ logErrorf id) :
    a.isBody = true :=
  isBody_of_isResourceBody a (logErrorf_isResourceBody id a h)

theorem collectResource_isResourceBody (w : World) (id : String) (a : Action)
    (h : a ∈ collectResource w id) : a.isResourceBody = true := by
  unfold collectResource at h
  split at h
  · exact logErrorf_isResourceBody id a h
  · exact logErrorf_isResourceBody id a h
  · exact logErrorf_isResourceBody id a h
  · split at h
    · simp at h; subst h; rfl
    · rcases mem_andThen _ _ _ h with h | h
      · simp only [List.mem_singleton] at h
        subst h
        exact MustNewConstMetric_isResourceBody _ _ _ rfl
      · rcases List.mem_append.1 h with h | h
        · rcases List.mem_append.1 h with h | h
          · simp only [List.mem_cons, List.mem_singleton, List.not_mem_nil, or_false] at h
            rcases h with h | h <;> subst h <;>
              exact MustNewConstMetric_isResourceBody _ _ _ rfl
          · split at h <;>
              simp only [List.mem_cons, List.mem_singleton, List.not_mem_nil, or_false] at h <;>
              rcases h with h | h <;> subst h <;>
              exact MustNewConstMetric_isResourceBody _ _ _ rfl
        · split at h
          · simp only [List.mem_cons, List.mem_singleton, List.not_mem_nil, or_false] at h
            rcases h with h | h <;> subst h <;>
              exact MustNewConstMetric_isResourceBody _ _ _ rfl
          · simp at h

theorem collectResource_sends (w : World) (id : String) (s : Sample)
    (h : s ∈ sends (collectResource w id)) : s.desc.isResource = true :=
  collectResource_isResourceBody w id _ ((mem_sends _ _).1 h)

theorem collectResource_isBody (w : World) (id : String) (a : Action)
    (h : a ∈ collectResource w id) : a.isBody = true :=
  isBody_of_isResourceBody a (collectResource_isResourceBody w id a h)

theorem collectStatus_isBody (w : World) (id : String) (a : Action)
    (h : a ∈ collectStatus w id) : a.isBody = true := by
  unfold collectStatus at h
  rcases mem_andThen _ _ _ h with h | h
  · split at h
    · exact logErrorf_isBody id a h
    · simp at h
  · split at h
    · rcases mem_andThen _ _ _ h with h | h
      · simp only [List.mem_singleton] at h
        subst h
        exact MustNewConstMetric_isBody _ _ _ rfl
      · split at h
        · simp at h; subst h; rfl
        · split at h
          · rcases List.mem_cons.1 h with h | h
            · subst h
              exact MustNewConstMetric_isBody _ _ _ rfl
            · rcases List.mem_append.1 h with h | h
              · split at h <;> simp only [List.mem_singleton, List.not_mem_nil] at h
                subst h
                exact MustNewConstMetric_isBody _ _ _ rfl
              · exact collectResource_isBody w id a h
          · split at h <;> simp only [List.mem_singleton] at h <;> subst h <;>
              exact MustNewConstMetric_isBody _ _ _ rfl
    · simp at h; subst h; rfl

theorem imageStep_isBody (image : ImageSummary) : (imageStep image).isBody = true := by
  unfold imageStep
  split
  · rfl
  · split
    · rfl
    · split
      · rfl
      · dsimp only
        split
        · exact MustNewConstMetric_isBody _ _ _ rfl
        · rfl

theorem imageLoop_isBody (images : List ImageSummary) (a : Action)
    (h : a ∈ imageLoop images) : a.isBody = true := by
  induction images with
  | nil => simp [imageLoop] at h
  | cons image rest ih =>
    unfold imageLoop at h
    rcases mem_andThen _ _ _ h with h | h
    · simp only [List.mem_singleton] at h
      subst h
      exact imageStep_isBody image
    · exact ih h

theorem Scrape_isBody (s : Scraper) (w : World) (σ : List Nat) (a : Action)
    (h : a ∈ (s.Scrape w σ).1) : a.isBody = true := by
  cases s with
  | InfoScraper =>
    simp only [Scraper.Scrape, InfoScraper.Scrape] at h
    rcases List.mem_append.1 h with h | h
    · split at h <;> simp at h
      subst h; rfl
    · simp at h
      casesm* _ ∨ _ <;> subst a <;> rfl
  | ContainerScraper =>
    simp only [Scraper.Scrape, ContainerScraper.Scrape] at h
    have key : ∀ b, b ∈ interleave σ (w.ContainerList.1.map fun c => collectStatus w c.ID) →
        b.isBody = true := by
      intro b hb
      obtain ⟨t, ht, hbt⟩ := (mem_interleave _ _ _).1 hb
      obtain ⟨c, -, rfl⟩ := List.mem_map.1 ht
      exact collectStatus_isBody w c.ID b hbt
    split at h
    · simp at h
    · split at h
      · exact key a h
      · rcases List.mem_append.1 h with h | h
        · exact key a h
        · simp at h; subst h; rfl
  | ImageScraper =>
    simp only [Scraper.Scrape, ImageScraper.Scrape] at h
    split at h
    · simp at h
    · split at h <;> exact imageLoop_isBody _ a h

theorem Scrape_no_panic (s : Scraper) (w : World) (σ : List Nat)
    (h : (s.Scrape w σ).2 ≠ Outcome.panicked) : Action.panic ∉ (s.Scrape w σ).1 := by
  cases s with
  | InfoScraper =>
    simp only [Scraper.Scrape, InfoScraper.Scrape]
    split <;> simp
  | ContainerScraper =>
    simp only [Scraper.Scrape, ContainerScraper.Scrape] at h ⊢
    split
    · simp
    · split
      · rename_i h1 h2
        simp [h1, h2] at h
      · rename_i h1 h2
        simpa using h2
  | ImageScraper =>
    simp only [Scraper.Scrape, ImageScraper.Scrape] at h ⊢
    split
    · simp
    · split
      · rename_i h1 h2
        simp [h1, h2] at h
      · rename_i h1 h2
        simpa using h2

/-! ## The goroutine of one scraper -/

theorem scraperTask_eq (w : World) (σ : List Nat) (s : Scraper)
    (h : (s.Scrape w σ).2 ≠ Outcome.panicked) :
    scraperTask w σ s =
      Action.invoke s.Name :: ((s.Scrape w σ).1
        ++ ((if (s.Scrape w σ).2.failed then
              [Action.log, Action.incScrapeErrors s.Name, Action.setError 1]
            else [])
          ++ [Action.send ⟨Desc.scrapeDurationDesc, Value.seconds, [s.Name]⟩])) := by
  unfold scraperTask
  generalize s.Scrape w σ = r at h ⊢
  obtain ⟨tr, o⟩ := r
  cases o with
  | panicked => simp at h
  | returned err => cases err <;> simp [Outcome.failed]

theorem mem_scraperTask (w : World) (σ : List Nat) (s : Scraper)
    (h : (s.Scrape w σ).2 ≠ Outcome.panicked) (a : Action) (ha : a ∈ scraperTask w σ s) :
    a = Action.invoke s.Name ∨ (a.isBody = true ∧ a ≠ Action.panic)
      ∨ ((s.Scrape w σ).2.failed = true
          ∧ (a = Action.incScrapeErrors s.Name ∨ a = Action.setError 1))
      ∨ a = Action.send ⟨Desc.scrapeDurationDesc, Value.seconds, [s.Name]⟩ := by
  rw [scraperTask_eq w σ s h] at ha
  rcases List.mem_cons.1 ha with ha | ha
  · exact Or.inl ha
  rcases List.mem_append.1 ha with ha | ha
  · refine Or.inr (Or.inl ⟨Scrape_isBody s w σ a ha, ?_⟩)
    rintro rfl
    exact Scrape_no_panic s w σ h ha
  rcases List.mem_append.1 ha with ha | ha
  · split at ha
    · rename_i hf
      simp at ha
      rcases ha with ha | ha | ha
      · subst ha; exact Or.inr (Or.inl ⟨rfl, by simp⟩)
      · exact Or.inr (Or.inr (Or.inl ⟨hf, Or.inl ha⟩))
      · exact Or.inr (Or.inr (Or.inl ⟨hf, Or.inr ha⟩))
    · simp at ha
  · simp at ha
    exact Or.inr (Or.inr (Or.inr ha))

theorem count_scraperTask (w : World) (σ : List Nat) (s : Scraper)
    (h : (s.Scrape w σ).2 ≠ Outcome.panicked) (label : String) :
    (scraperTask w σ s).count (Action.incScrapeErrors label)
      = if s.Name = label ∧ (s.Scrape w σ).2.failed = true then 1 else 0 := by
  have hbody : (s.Scrape w σ).1.count (Action.incScrapeErrors label) = 0 := by
    rw [List.count_eq_zero]
    intro hm
    have := Scrape_isBody s w σ _ hm
    simp [Action.isBody] at this
  rw [scraperTask_eq w σ s h]
  by_cases hf : (s.Scrape w σ).2.failed = true <;> by_cases hn : s.Name = label <;>
    simp [List.count_cons, List.count_append, hbody, hf, hn]

theorem sends_scraperTask (w : World) (σ : List Nat) (s : Scraper)
    (h : (s.Scrape w σ).2 ≠ Outcome.panicked) :
    sends (scraperTask w σ s)
      = sends (s.Scrape w σ).1 ++ [⟨Desc.scrapeDurationDesc, Value.seconds, [s.Name]⟩] := by
  rw [scraperTask_eq w σ s h]
  by_cases hf : (s.Scrape w σ).2.failed = true <;> simp [sends, sends_append, hf]

theorem countP_scraperTask (w : World) (σ : List Nat) (s : Scraper)
    (h : (s.Scrape w σ).2 ≠ Outcome.panicked) (label : String) :
    (sends (scraperTask w σ s)).countP (isDuration label)
      = if s.Name = label then 1 else 0 := by
  have hbody : (sends (s.Scrape w σ).1).countP (isDuration label) = 0 := by
    rw [List.countP_eq_zero]
    intro x hx
    have := Scrape_isBody s w σ _ ((mem_sends _ _).1 hx)
    simp only [Action.isBody] at this
    cases hd : x.desc <;> simp_all [isDuration, Desc.isData]
  rw [sends_scraperTask w σ s h, List.countP_append, hbody]
  by_cases hn : s.Name = label <;> simp [isDuration, hn]

/-! ## All scraper goroutines of one cycle -/

theorem sends_eq_filterMap (tr : List Action) :
    sends tr = tr.filterMap (fun a => match a with | Action.send s => some s | _ => none) := by
  induction tr with
  | nil => simp [sends]
  | cons a tr ih => cases a <;> simp [sends, ih]

theorem sends_perm (x y : List Action) (h : x.Perm y) : (sends x).Perm (sends y) := by
  rw [sends_eq_filterMap, sends_eq_filterMap]
  exact h.filterMap _

theorem sends_flatten (ts : List (List Action)) : sends ts.flatten = (ts.map sends).flatten := by
  induction ts with
  | nil => simp [sends]
  | cons t ts ih => simp [sends_append, ih]

theorem count_tasks (w : World) (σ : List Nat) (l : List Scraper)
    (h : ∀ s ∈ l, (s.Scrape w σ).2 ≠ Outcome.panicked) (label : String) :
    (l.map (scraperTask w σ)).flatten.count (Action.incScrapeErrors label)
      = l.countP (fun s => decide (s.Name = label) && (s.Scrape w σ).2.failed) := by
  induction l with
  | nil => simp
  | cons s l ih =>
    have hs := h s (List.mem_cons_self _ _)
    have hl : ∀ t ∈ l, (t.Scrape w σ).2 ≠ Outcome.panicked :=
      fun t ht => h t (List.mem_cons_of_mem _ ht)
    simp only [List.map_cons, List.flatten_cons, List.count_append, ih hl,
      count_scraperTask w σ s hs, List.countP_cons]
    by_cases hf : (s.Scrape w σ).2.failed = true <;> by_cases hn : s.Name = label <;>
      simp [hf, hn] <;> omega

theorem countP_tasks (w : World) (σ : List Nat) (l : List Scraper)
    (h : ∀ s ∈ l, (s.Scrape w σ).2 ≠ Outcome.panicked) (label : String) :
    (sends (l.map (scraperTask w σ)).flatten).countP (isDuration label)
      = l.countP (fun s => decide (s.Name = label)) := by
  induction l with
  | nil => simp [sends]
  | cons s l ih =>
    have hs := h s (List.mem_cons_self _ _)
    have hl : ∀ t ∈ l, (t.Scrape w σ).2 ≠ Outcome.panicked :=
      fun t ht => h t (List.mem_cons_of_mem _ ht)
    simp only [List.map_cons, List.flatten_cons, sends_append, List.countP_append, ih hl,
      countP_scraperTask w σ s hs, List.countP_cons]
    by_cases hn : s.Name = label <;> simp [hn] <;> omega

theorem Name_injective (s t : Scraper) (h : s.Name = t.Name) : s = t := by
  cases s <;> cases t <;> first | rfl | exact absurd h (by decide)

theorem nodup_enabledScrapers (order : List Scraper) (flags : Scraper → Bool)
    (h : order.Perm (Scrapers.map Prod.fst)) : (enabledScrapers order flags).Nodup := by
  have : (Scrapers.map Prod.fst).Nodup := by decide
  exact (h.nodup_iff.2 this).filter _

theorem countP_name (l : List Scraper) (hl : l.Nodup) (s : Scraper) (hs : s ∈ l) :
    l.countP (fun t => decide (t.Name = s.Name)) = 1 := by
  have : l.countP (fun t => decide (t.Name = s.Name)) = l.count s := by
    rw [List.count]
    apply List.countP_congr
    intro t _
    constructor
    · intro ht
      simp only [decide_eq_true_eq] at ht
      simp [Name_injective t s ht]
    · intro ht
      simp only [beq_iff_eq] at ht
      simp [ht]
  rw [this]
  exact List.count_eq_one_of_mem hl hs

/-! ## One cycle with a reachable daemon -/

theorem mem_merged (w : World) (sch : Schedule) (l : List Scraper) (a : Action) :
    a ∈ interleave sch.top ([Action.setProbeTime w.now] :: l.map (scraperTask w sch.containers))
      ↔ a = Action.setProbeTime w.now ∨ ∃ s ∈ l, a ∈ scraperTask w sch.containers s := by
  rw [mem_interleave]
  constructor
  · rintro ⟨t, ht, hat⟩
    rcases List.mem_cons.1 ht with ht | ht
    · subst ht
      exact Or.inl (by simpa using hat)
    · obtain ⟨s, hs, rfl⟩ := List.mem_map.1 ht
      exact Or.inr ⟨s, hs, hat⟩
  · rintro (h | ⟨s, hs, hat⟩)
    · exact ⟨_, List.mem_cons_self _ _, by simp [h]⟩
    · exact ⟨_, List.mem_cons_of_mem _ (List.mem_map_of_mem _ hs), hat⟩

theorem merged_perm (w : World) (sch : Schedule) (l : List Scraper) :
    (interleave sch.top ([Action.setProbeTime w.now] :: l.map (scraperTask w sch.containers))).Perm
      (Action.setProbeTime w.now :: (l.map (scraperTask w sch.containers)).flatten) := by
  simpa using interleave_perm sch.top
    ([Action.setProbeTime w.now] :: l.map (scraperTask w sch.containers))

theorem scrape_success (e : Exporter) (w : World) (sch : Schedule) (hping : w.Ping = none) :
    e.scrape w sch =
      [Action.incTotalScrapes, Action.setDockerUp 1, Action.setError 0,
        Action.send ⟨Desc.scrapeDurationDesc, Value.seconds, ["ping"]⟩]
      ++ interleave sch.top
          ([Action.setProbeTime w.now] :: e.scrapers.map (scraperTask w sch.containers)) := by
  simp [Exporter.scrape, hping]

/-- The state and the channel after a cycle with a reachable daemon in which every
scraper returns. -/
theorem collect_success (e : Exporter) (w : World) (sch : Schedule) (hping : w.Ping = none)
    (hret : ∀ s ∈ e.scrapers, (s.Scrape w sch.containers).2 ≠ Outcome.panicked) :
    ∃ m' ch, e.Collect w sch = some (⟨m', e.scrapers⟩, ch ++ ownMetrics m')
      ∧ m'.TotalScrapes = e.metrics.TotalScrapes + 1
      ∧ m'.DockerUp = 1
      ∧ m'.SuccessfulProbeTime = w.now
      ∧ m'.Error = (if ∃ s ∈ e.scrapers, (s.Scrape w sch.containers).2.failed = true
          then 1 else 0)
      ∧ (∀ label, counterValue label m'.ScrapeErrors
          = counterValue label e.metrics.ScrapeErrors
            + e.scrapers.countP
                (fun s => decide (s.Name = label) && (s.Scrape w sch.containers).2.failed))
      ∧ (∀ label, ch.countP (isDuration label)
          = (if label = "ping" then 1 else 0)
            + e.scrapers.countP (fun s => decide (s.Name = label))) := by
  set M := interleave sch.top
    ([Action.setProbeTime w.now] :: e.scrapers.map (scraperTask w sch.containers)) with hM
  have hmem := mem_merged w sch e.scrapers
  rw [← hM] at hmem
  have hperm := merged_perm w sch e.scrapers
  rw [← hM] at hperm
  have hcls : ∀ a ∈ M, a = Action.setProbeTime w.now ∨ ∃ s ∈ e.scrapers,
      a = Action.invoke s.Name ∨ (a.isBody = true ∧ a ≠ Action.panic)
      ∨ ((s.Scrape w sch.containers).2.failed = true
          ∧ (a = Action.incScrapeErrors s.Name ∨ a = Action.setError 1))
      ∨ a = Action.send ⟨Desc.scrapeDurationDesc, Value.seconds, [s.Name]⟩ := by
    intro a ha
    rcases (hmem a).1 ha with h | ⟨s, hs, hat⟩
    · exact Or.inl h
    · exact Or.inr ⟨s, hs, mem_scraperTask w sch.containers s (hret s hs) a hat⟩
  have hpanic : Action.panic ∉ M := by
    intro ha
    rcases hcls _ ha with h | ⟨s, -, h | h | h | h⟩ <;> simp [Action.isBody] at h
  have hup : ∀ v, Action.setDockerUp v ∉ M := by
    intro v ha
    rcases hcls _ ha with h | ⟨s, -, h | h | h | h⟩ <;> simp [Action.isBody] at h
  have htot : M.count Action.incTotalScrapes = 0 := by
    rw [List.count_eq_zero]
    intro ha
    rcases hcls _ ha with h | ⟨s, -, h | h | h | h⟩ <;> simp [Action.isBody] at h
  have herr1 : ∀ v, Action.setError v ∈ M → v = 1 := by
    intro v ha
    rcases hcls _ ha with h | ⟨s, -, h | h | h | h⟩ <;> simp [Action.isBody] at h
    exact h.2
  have herr2 : Action.setError 1 ∈ M
      ↔ ∃ s ∈ e.scrapers, (s.Scrape w sch.containers).2.failed = true := by
    constructor
    · intro ha
      rcases hcls _ ha with h | ⟨s, hs, h | h | h | h⟩
      · simp at h
      · simp at h
      · simp [Action.isBody] at h
      · exact ⟨s, hs, h.1⟩
      · simp at h
    · rintro ⟨s, hs, hf⟩
      refine (hmem _).2 (Or.inr ⟨s, hs, ?_⟩)
      rw [scraperTask_eq w sch.containers s (hret s hs)]
      simp [hf]
  have hpt1 : ∀ t, Action.setProbeTime t ∈ M → t = w.now := by
    intro t ha
    rcases hcls _ ha with h | ⟨s, -, h | h | h | h⟩ <;> simp [Action.isBody] at h
    exact h
  have hpt2 : Action.setProbeTime w.now ∈ M := (hmem _).2 (Or.inl rfl)
  have hcnt : ∀ label, M.count (Action.incScrapeErrors label)
      = e.scrapers.countP
          (fun s => decide (s.Name = label) && (s.Scrape w sch.containers).2.failed) := by
    intro label
    rw [hperm.count_eq, List.count_cons, count_tasks w sch.containers e.scrapers hret]
    simp
  have hdur : ∀ label, (sends M).countP (isDuration label)
      = e.scrapers.countP (fun s => decide (s.Name = label)) := by
    intro label
    rw [(sends_perm _ _ hperm).countP_eq]
    simp only [sends]
    exact countP_tasks w sch.containers e.scrapers hret label
  have hscrape := scrape_success e w sch hping
  rw [← hM] at hscrape
  have hnp : Action.panic ∉ e.scrape w sch := by
    rw [hscrape]
    simp [hpanic]
  refine ⟨((e.scrape w sch).foldl exec (e.metrics, [])).1,
    ((e.scrape w sch).foldl exec (e.metrics, [])).2, ?_, ?_, ?_, ?_, ?_, ?_, ?_⟩
  · simp [Exporter.Collect, run_eq_some _ _ hnp]
  · rw [foldl_exec_totalScrapes, hscrape]
    simp [List.count_cons, List.count_append, htot]
  · rw [hscrape, List.foldl_append, foldl_exec_dockerUp _ _ hup]
    simp [exec]
  · rw [hscrape, List.foldl_append]
    exact foldl_exec_probeTime _ _ _ hpt1 hpt2
  · rw [hscrape, List.foldl_append, foldl_exec_error _ _ herr1]
    by_cases h : ∃ s ∈ e.scrapers, (s.Scrape w sch.containers).2.failed = true
    · rw [if_pos (herr2.2 h), if_pos h]
    · rw [if_neg (fun hc => h (herr2.1 hc)), if_neg h]
      simp [exec]
  · intro label
    rw [foldl_exec_scrapeErrors, hscrape]
    simp [List.count_cons, List.count_append, hcnt]
  · intro label
    rw [foldl_exec_snd, hscrape, sends_append, List.nil_append, List.countP_append, hdur]
    by_cases hl : label = "ping" <;> simp [sends, isDuration, hl]
    exact fun h => hl h.symm

/-! ## The claims on the orchestrator -/

/-- C1: when the ping fails, one cycle invokes no scraper, writes only the exporter's own
five kinds of metrics to the channel (no info, container, image or duration sample), and
leaves the daemon-up gauge at 0 and the last-error gauge at 1. -/
theorem C1_ping_failure (e : Exporter) (w : World) (sch : Schedule)
    (hping : w.Ping.isSome = true) :
    (∀ name, Action.invoke name ∉ e.scrape w sch)
    ∧ ∃ m', e.Collect w sch = some (⟨m', e.scrapers⟩, ownMetrics m')
        ∧ m'.DockerUp = 0 ∧ m'.Error = 1
        ∧ ∀ s ∈ ownMetrics m', s.desc.isData = false ∧ s.desc ≠ Desc.scrapeDurationDesc := by
  have hs : e.scrape w sch
      = [Action.incTotalScrapes, Action.log, Action.setDockerUp 0, Action.setError 1] := by
    simp [Exporter.scrape, hping]
  refine ⟨by simp [hs], ⟨{ e.metrics with
    TotalScrapes := e.metrics.TotalScrapes + 1, DockerUp := 0, Error := 1 }, ?_, rfl, rfl, ?_⟩⟩
  · unfold Exporter.Collect
    rw [hs]
    rfl
  intro s hs
  simp only [ownMetrics, List.mem_append, List.mem_cons, List.mem_map, List.mem_singleton,
    List.not_mem_nil, or_false] at hs
  rcases hs with ((h | h) | ⟨c, -, h⟩) | h | h <;> subst h <;> exact ⟨rfl, by simp⟩

theorem C1_ping_failure_witness :
    (∀ name, Action.invoke name ∉ freshExporter.scrape unreachableWorld exampleSchedule)
    ∧ ∃ m', freshExporter.Collect unreachableWorld exampleSchedule
          = some (⟨m', freshExporter.scrapers⟩, ownMetrics m')
        ∧ m'.DockerUp = 0 ∧ m'.Error = 1
        ∧ ∀ s ∈ ownMetrics m', s.desc.isData = false ∧ s.desc ≠ Desc.scrapeDurationDesc :=
  C1_ping_failure freshExporter unreachableWorld exampleSchedule (by decide)

/-- C2: in a cycle with a successful ping in which every enabled scraper returns (with an
error or without), every enabled scraper is invoked and the channel holds exactly one
collector-duration sample labelled with its name. -/
theorem C2_duration_once (m : Metrics) (w : World) (sch : Schedule) (order : List Scraper)
    (flags : Scraper → Bool) (hperm : order.Perm (Scrapers.map Prod.fst))
    (hping : w.Ping = none)
    (hret : ∀ s ∈ enabledScrapers order flags,
      (s.Scrape w sch.containers).2 ≠ Outcome.panicked) :
    ∃ e' out, (Exporter.mk m (enabledScrapers order flags)).Collect w sch = some (e', out)
      ∧ ∀ s ∈ enabledScrapers order flags,
          Action.invoke s.Name ∈ (Exporter.mk m (enabledScrapers order flags)).scrape w sch
          ∧ out.countP (isDuration s.Name) = 1 := by
  obtain ⟨m', ch, hc, -, -, -, -, -, hdur⟩ :=
    collect_success (Exporter.mk m (enabledScrapers order flags)) w sch hping hret
  refine ⟨_, _, hc, ?_⟩
  intro s hs
  constructor
  · rw [scrape_success _ w sch hping]
    refine List.mem_append_right _ ((mem_merged w sch _ _).2 (Or.inr ⟨s, hs, ?_⟩))
    rw [scraperTask_eq w sch.containers s (hret s hs)]
    exact List.mem_cons_self _ _
  · have hown : (ownMetrics m').countP (isDuration s.Name) = 0 := by
      rw [List.countP_eq_zero]
      intro x hx
      simp only [ownMetrics, List.mem_append, List.mem_cons, List.mem_map, List.mem_singleton,
        List.not_mem_nil, or_false] at hx
      rcases hx with ((h | h) | ⟨c, -, h⟩) | h | h <;> subst h <;> simp [isDuration]
    have hne : s.Name ≠ "ping" := by cases s <;> decide
    rw [List.countP_append, hown, hdur s.Name, if_neg hne,
      countP_name _ (nodup_enabledScrapers order flags hperm) s hs]

theorem C2_duration_once_witness :
    ∃ e' out, (Exporter.mk ⟨0, [], 0, 0, 0⟩
        (enabledScrapers (Scrapers.map Prod.fst) (fun _ => true))).Collect
          listFailsWorld exampleSchedule = some (e', out)
      ∧ ∀ s ∈ enabledScrapers (Scrapers.map Prod.fst) (fun _ => true),
          Action.invoke s.Name ∈ (Exporter.mk ⟨0, [], 0, 0, 0⟩
            (enabledScrapers (Scrapers.map Prod.fst) (fun _ => true))).scrape
              listFailsWorld exampleSchedule
          ∧ out.countP (isDuration s.Name) = 1 :=
  C2_duration_once ⟨0, [], 0, 0, 0⟩ listFailsWorld exampleSchedule (Scrapers.map Prod.fst)
    (fun _ => true) (List.Perm.refl _) (by decide) (by decide)

/-- C3: in a cycle with a successful ping in which every enabled scraper returns, the
names of the scrapers are pairwise distinct, the scrape-errors counter labelled with the
name of an enabled scraper whose Scrape returned an error is exactly 1 greater after the
cycle, and the counter labelled with the name of a scraper that did not fail is unchanged. -/
theorem C3_error_counter (m : Metrics) (w : World) (sch : Schedule) (order : List Scraper)
    (flags : Scraper → Bool) (hperm : order.Perm (Scrapers.map Prod.fst))
    (hping : w.Ping = none)
    (hret : ∀ s ∈ enabledScrapers order flags,
      (s.Scrape w sch.containers).2 ≠ Outcome.panicked) :
    (∀ s t : Scraper, s ≠ t → s.Name ≠ t.Name)
    ∧ ∃ e' out, (Exporter.mk m (enabledScrapers order flags)).Collect w sch = some (e', out)
      ∧ (∀ s ∈ enabledScrapers order flags, (s.Scrape w sch.containers).2.failed = true →
          counterValue s.Name e'.metrics.ScrapeErrors
            = counterValue s.Name m.ScrapeErrors + 1)
      ∧ (∀ t : Scraper,
          (t ∈ enabledScrapers order flags → (t.Scrape w sch.containers).2.failed = false) →
          counterValue t.Name e'.metrics.ScrapeErrors = counterValue t.Name m.ScrapeErrors) := by
  refine ⟨fun s t hst h => hst (Name_injective s t h), ?_⟩
  obtain ⟨m', ch, hc, -, -, -, -, hcnt, -⟩ :=
    collect_success (Exporter.mk m (enabledScrapers order flags)) w sch hping hret
  refine ⟨_, _, hc, ?_, ?_⟩
  · intro s hs hf
    have hone : (enabledScrapers order flags).countP
        (fun x => decide (x.Name = s.Name) && (x.Scrape w sch.containers).2.failed) = 1 := by
      rw [← countP_name _ (nodup_enabledScrapers order flags hperm) s hs]
      apply List.countP_congr
      intro x _
      constructor
      · intro hx
        simp only [Bool.and_eq_true] at hx
        exact hx.1
      · intro hx
        have hxs : x = s := Name_injective x s (by simpa using hx)
        subst hxs
        simp [hf]
    simp only [hcnt s.Name, hone]
  · intro t ht
    have hzero : (enabledScrapers order flags).countP
        (fun x => decide (x.Name = t.Name) && (x.Scrape w sch.containers).2.failed) = 0 := by
      rw [List.countP_eq_zero]
      intro x hx hp
      simp only [Bool.and_eq_true, decide_eq_true_eq] at hp
      have hxt : x = t := Name_injective x t hp.1
      subst hxt
      simp [ht hx] at hp
    simp only [hcnt t.Name, hzero, Nat.add_zero]

theorem C3_error_counter_witness :
    (∀ s t : Scraper, s ≠ t → s.Name ≠ t.Name)
    ∧ ∃ e' out, (Exporter.mk ⟨4, [("container", 2)], 0, 1, 0⟩
        (enabledScrapers (Scrapers.map Prod.fst) (fun _ => true))).Collect
          listFailsWorld exampleSchedule = some (e', out)
      ∧ (∀ s ∈ enabledScrapers (Scrapers.map Prod.fst) (fun _ => true),
          (s.Scrape listFailsWorld exampleSchedule.containers).2.failed = true →
          counterValue s.Name e'.metrics.ScrapeErrors
            = counterValue s.Name [("container", 2)] + 1)
      ∧ (∀ t : Scraper,
          (t ∈ enabledScrapers (Scrapers.map Prod.fst) (fun _ => true) →
            (t.Scrape listFailsWorld exampleSchedule.containers).2.failed = false) →
          counterValue t.Name e'.metrics.ScrapeErrors
            = counterValue t.Name [("container", 2)]) :=
  C3_error_counter ⟨4, [("container", 2)], 0, 1, 0⟩ listFailsWorld exampleSchedule
    (Scrapers.map Prod.fst) (fun _ => true) (List.Perm.refl _) (by decide) (by decide)

/-- C10: in a cycle with a successful ping in which every enabled scraper returns, after
the join the daemon-up gauge is 1, the total-scrapes counter is 1 greater than before,
the probe time is the clock reading of this cycle, and the last-error gauge is 1 if some
enabled scraper returned an error and 0 otherwise, whatever it was before. -/
theorem C10_cycle_state (e : Exporter) (w : World) (sch : Schedule) (hping : w.Ping = none)
    (hret : ∀ s ∈ e.scrapers, (s.Scrape w sch.containers).2 ≠ Outcome.panicked) :
    ∃ e' out, e.Collect w sch = some (e', out)
      ∧ e'.metrics.DockerUp = 1
      ∧ e'.metrics.TotalScrapes = e.metrics.TotalScrapes + 1
      ∧ e'.metrics.SuccessfulProbeTime = w.now
      ∧ (e'.metrics.Error = 1
          ↔ ∃ s ∈ e.scrapers, (s.Scrape w sch.containers).2.failed = true)
      ∧ ((∀ s ∈ e.scrapers, (s.Scrape w sch.containers).2.failed = false)
          → e'.metrics.Error = 0) := by
  obtain ⟨m', ch, hc, htot, hup, hpt, herr, -, -⟩ := collect_success e w sch hping hret
  refine ⟨_, _, hc, hup, htot, hpt, ?_, ?_⟩
  · show m'.Error = 1 ↔ _
    rw [herr]
    by_cases h : ∃ s ∈ e.scrapers, (s.Scrape w sch.containers).2.failed = true <;> simp [h]
  · intro h
    show m'.Error = 0
    rw [herr, if_neg]
    rintro ⟨s, hs, hf⟩
    simp [h s hs] at hf

theorem C10_cycle_state_witness :
    ∃ e' out, (Exporter.mk ⟨4, [], 1, 0, 17⟩ [Scraper.ImageScraper, Scraper.ContainerScraper]).Collect
        healthyWorld exampleSchedule = some (e', out)
      ∧ e'.metrics.DockerUp = 1
      ∧ e'.metrics.TotalScrapes = 4 + 1
      ∧ e'.metrics.SuccessfulProbeTime = healthyWorld.now
      ∧ (e'.metrics.Error = 1
          ↔ ∃ s ∈ [Scraper.ImageScraper, Scraper.ContainerScraper],
              (s.Scrape healthyWorld exampleSchedule.containers).2.failed = true)
      ∧ ((∀ s ∈ [Scraper.ImageScraper, Scraper.ContainerScraper],
            (s.Scrape healthyWorld exampleSchedule.containers).2.failed = false)
          → e'.metrics.Error = 0) :=
  C10_cycle_state (Exporter.mk ⟨4, [], 1, 0, 17⟩ [Scraper.ImageScraper, Scraper.ContainerScraper])
    healthyWorld exampleSchedule (by decide) (by decide)

/-! ## The claims on the scrapers -/

/-- C4: the info scraper never returns an error.  When the daemon info call fails it logs
the error, sends three samples from the value it got and returns nil, so the cycle counts
nothing for `info` and leaves the last-error gauge at 0; the container scraper does return
the error of its list call. -/
theorem C4_info_error_dropped :
    (∀ w : World, (InfoScraper.Scrape w).2 = Outcome.returned none)
    ∧ infoFailsWorld.Info.2 = some "info failed"
    ∧ InfoScraper.Scrape infoFailsWorld
        = ([Action.log,
            Action.send ⟨Desc.containers, Value.float64 0, ["total"]⟩,
            Action.send ⟨Desc.containers, Value.float64 0, ["running"]⟩,
            Action.send ⟨Desc.containers, Value.float64 0, ["stopped"]⟩],
          Outcome.returned none)
    ∧ (freshExporter.Collect infoFailsWorld exampleSchedule).map
        (fun r => (counterValue "info" r.1.metrics.ScrapeErrors, r.1.metrics.Error))
        = some (0, 0)
    ∧ (ContainerScraper.Scrape listFailsWorld []).2 = Outcome.returned (some "list failed") :=
  ⟨fun _ => rfl, by decide, by decide, by decide, by decide⟩

/-- C6: after a failed inspect `collectStatus` logs the error and goes on with the zero
value it got, which panics on the nil base record; the container scraper does not return
and the cycle yields nothing. -/
theorem C6_failed_inspect_panics :
    (inspectFailsWorld.ContainerInspect exampleID).2 = some "no such container"
    ∧ collectStatus inspectFailsWorld exampleID = [Action.log, Action.panic]
    ∧ (ContainerScraper.Scrape inspectFailsWorld exampleSchedule.containers).2
        = Outcome.panicked
    ∧ freshExporter.Collect inspectFailsWorld exampleSchedule = none := by
  decide

/-- C7: the repository tag is split at every colon and the first two fields are used.
For `registry:5000/app:1.0` the labels are repo `registry` and tag `5000/app`; for
`repo:tag` they are repo `repo` and tag `tag`. -/
theorem C7_split_first_colon :
    ImageScraper.Scrape (imagesWorld [registryImage])
      = ([Action.send ⟨Desc.image_size, Value.float64 1024,
            ["abcdef123456", "registry", "5000/app"]⟩], Outcome.returned none)
    ∧ ImageScraper.Scrape healthyWorld
      = ([Action.send ⟨Desc.image_size, Value.float64 1024,
            ["abcdef123456", "repo", "tag"]⟩], Outcome.returned none) := by
  decide

/-- C9: a cycle whose image list holds an image without repository tags, with a tag
without colon, with an ID without colon or with fewer than twelve bytes after the colon
ends in a panic, and none of these cycles returns a metric snapshot. -/
theorem C9_collect_panics :
    freshExporter.Collect (imagesWorld [untaggedImage]) exampleSchedule = none
    ∧ freshExporter.Collect (imagesWorld [⟨"sha256:abcdef1234567890", ["latest"], 1⟩])
        exampleSchedule = none
    ∧ freshExporter.Collect (imagesWorld [⟨"abcdef1234567890", ["repo:tag"], 1⟩])
        exampleSchedule = none
    ∧ freshExporter.Collect (imagesWorld [⟨"sha256:abc", ["repo:tag"], 1⟩])
        exampleSchedule = none
    ∧ (ImageScraper.Scrape (imagesWorld [untaggedImage])).2 = Outcome.panicked := by
  decide

/-! ## Names and conversions -/

theorem sliceChars_prefix (p s : List Char) (n : Nat) (hp : p <+: s)
    (hn : (p.map Char.utf8Size).sum = n) :
    sliceChars s n = some (GoString.text (String.mk p)) := by
  induction p generalizing s n with
  | nil =>
    simp only [List.map_nil, List.sum_nil] at hn
    subst hn
    cases s <;> rfl
  | cons c p ih =>
    obtain ⟨r, rfl⟩ := hp
    simp only [List.map_cons, List.sum_cons] at hn
    have hpos : 0 < c.utf8Size := Char.utf8Size_pos c
    obtain ⟨m, rfl⟩ : ∃ m, n = m + 1 := ⟨n - 1, by omega⟩
    have hle : c.utf8Size ≤ m + 1 := by omega
    have hrec := ih (p ++ r) (m + 1 - c.utf8Size) ⟨r, rfl⟩ (by omega)
    have happ : p.append r = p ++ r := rfl
    simp only [List.cons_append, sliceChars, hle, if_true, happ, hrec]

theorem getNameByInspect_text (b : ContainerJSONBase)
    (hname : b.Name ≠ "" ∨ ∃ p : String, p.data <+: b.ID.data ∧ len p = 12) :
    ∃ name, getNameByInspect ⟨some b⟩ = some (GoString.text name) := by
  unfold getNameByInspect
  by_cases h : b.Name = ""
  · rcases hname with h' | ⟨p, hp, hl⟩
    · exact absurd h h'
    · exact ⟨p, by simp [h, sliceTo, sliceChars_prefix p.data b.ID.data 12 hp hl]⟩
  · exact ⟨Trim b.Name '/', by simp [h]⟩

theorem getNameByStatus_text (stats : StatsJSON)
    (hname : stats.Name ≠ "" ∨ ∃ p : String, p.data <+: stats.ID.data ∧ len p = 12) :
    ∃ name, getNameByStatus stats = some (GoString.text name) := by
  unfold getNameByStatus
  by_cases h : stats.Name = ""
  · rcases hname with h' | ⟨p, hp, hl⟩
    · exact absurd h h'
    · exact ⟨p, by simp [h, sliceTo, sliceChars_prefix p.data stats.ID.data 12 hp hl]⟩
  · exact ⟨Trim stats.Name '/', by simp [h]⟩

theorem roundNat_exact (n : Nat) (h : n ≤ 2 ^ 53) : roundNat n = n := by
  rcases Nat.lt_or_eq_of_le h with h | h
  · unfold roundNat
    rw [if_pos h]
  · subst h
    decide

theorem toFloat64_exact (n : Int) (h : n.natAbs ≤ 2 ^ 53) : toFloat64 n = Value.float64 n := by
  unfold toFloat64
  rw [roundNat_exact _ h]
  congr 1
  split <;> omega

theorem sumNetworks_eq (l : List (String × NetworkStats)) (acc : Nat × Nat)
    (h1 : acc.1 < uint64Size) (h2 : acc.2 < uint64Size) :
    sumNetworks l acc
      = ((acc.1 + (l.map fun n => n.2.RxBytes).sum) % uint64Size,
          (acc.2 + (l.map fun n => n.2.TxBytes).sum) % uint64Size) := by
  have hpos : 0 < uint64Size := by decide
  induction l generalizing acc with
  | nil => simp [sumNetworks, Nat.mod_eq_of_lt h1, Nat.mod_eq_of_lt h2]
  | cons n l ih =>
    obtain ⟨k, n⟩ := n
    simp only [sumNetworks, List.map_cons, List.sum_cons]
    rw [ih _ (Nat.mod_lt _ hpos) (Nat.mod_lt _ hpos)]
    simp only [Nat.mod_add_mod, Nat.add_assoc]

theorem collectResource_text (w : World) (id : String) (stats : StatsJSON) (name : String)
    (hparsed : w.ContainerStats id = StatsResponse.parsed stats)
    (hn : getNameByStatus stats = some (GoString.text name)) :
    sends (collectResource w id)
      = [⟨Desc.cpu_used_total, toFloat64 stats.TotalUsage, [name]⟩,
          ⟨Desc.cpu_capacity_total, toFloat64 stats.SystemUsage, [name]⟩,
          ⟨Desc.memory_used_bytes, toFloat64 stats.MemoryUsage, [name]⟩,
          ⟨Desc.network_in_bytes,
            toFloat64 ((((stats.Networks.getD []).map fun n => n.2.RxBytes).sum
              % uint64Size : Nat)), [name]⟩,
          ⟨Desc.network_out_bytes,
            toFloat64 ((((stats.Networks.getD []).map fun n => n.2.TxBytes).sum
              % uint64Size : Nat)), [name]⟩]
        ++ (if stats.IoServiceBytesRecursive.length ≠ 0 then
              [⟨Desc.disk_read_bytes,
                  toFloat64 (sumEntries stats.IoServiceBytesRecursive (0, 0)).1, [name]⟩,
                ⟨Desc.disk_write_bytes,
                  toFloat64 (sumEntries stats.IoServiceBytesRecursive (0, 0)).2, [name]⟩]
            else []) := by
  have hpos : (0 : Nat) < uint64Size := by decide
  have hzero : toFloat64 ((0 % uint64Size : Nat)) = Value.float64 0 := by decide
  unfold collectResource
  simp only [hparsed, hn, MustNewConstMetric_text, andThen, List.mem_singleton,
    reduceCtorEq, if_false]
  cases hnet : stats.Networks with
  | none =>
    simp only [Option.getD_none, List.map_nil, List.sum_nil, hzero]
    by_cases hblk : stats.IoServiceBytesRecursive.length = 0 <;> simp [sends, hblk]
  | some networks =>
    have hsum := sumNetworks_eq networks (0, 0) hpos hpos
    simp only [Nat.zero_add] at hsum
    simp only [hsum, Option.getD_some]
    by_cases hblk : stats.IoServiceBytesRecursive.length = 0 <;> simp [sends, hblk]

/-! ## The claims on the container goroutine -/

/-- C5, as a counterexample: four inspect calls that return no error.  With an empty
name and an ID of three bytes, with an empty name and an ID of fifteen bytes whose first
twelve bytes end inside a character, and with a nil base record, `collectStatus` panics
before it sends anything; with a nil `State` it panics after the restart count.  None of
them sends a running-state sample. -/
theorem C5_counterexample :
    ((inspectWorld shortIdContainer).ContainerInspect exampleID).2 = none
    ∧ collectStatus (inspectWorld shortIdContainer) exampleID = [Action.panic]
    ∧ (sends (collectStatus (inspectWorld shortIdContainer) exampleID)).countP
        (fun s => s.desc = Desc.running_state) = 0
    ∧ len cutID = 15
    ∧ collectStatus (inspectWorld cutIdContainer) exampleID = [Action.panic]
    ∧ (sends (collectStatus (inspectWorld cutIdContainer) exampleID)).countP
        (fun s => s.desc = Desc.running_state) = 0
    ∧ (sends (collectStatus (inspectWorld noStateContainer) exampleID)).countP
        (fun s => s.desc = Desc.running_state) = 0
    ∧ (sends (collectStatus (inspectWorld ⟨none⟩) exampleID)).countP
        (fun s => s.desc = Desc.running_state) = 0 := by
  decide

/-- C5, amended: for an inspect call that returns no error and a container record with
its State, whose name is not empty or whose ID begins with characters of exactly twelve
bytes, `collectStatus` sends, in this order, the restart count, one running-state sample
(1 when running, else 0.5 when restarting, else 0), the start time exactly when the
container is running and `StartedAt` parses (float64 of the parsed Unix seconds, which is
that number itself up to 2^53 seconds), and then, when running, what `collectResource`
sends, which are resource metrics only. -/
theorem C5_collectStatus (w : World) (id : String) (b : ContainerJSONBase)
    (state : ContainerState)
    (hinspect : w.ContainerInspect id = (⟨some b⟩, none))
    (hstate : b.State = some state)
    (hname : b.Name ≠ "" ∨ ∃ p : String, p.data <+: b.ID.data ∧ len p = 12) :
    ∃ name, getNameByInspect ⟨some b⟩ = some (GoString.text name)
      ∧ sends (collectStatus w id)
        = [⟨Desc.restart_count, toFloat64 b.RestartCount, [name]⟩,
            ⟨Desc.running_state,
              (if state.Running then Value.float64 1
                else if state.Restarting then Value.half else Value.float64 0), [name]⟩]
          ++ (if state.Running then
                (match w.parseRFC3339Nano state.StartedAt with
                  | some timestamp =>
                    [⟨Desc.start_time_seconds, toFloat64 timestamp, [name]⟩]
                  | none => [])
                ++ sends (collectResource w id)
              else [])
      ∧ (∀ timestamp : Int, timestamp.natAbs ≤ 2 ^ 53 →
          toFloat64 timestamp = Value.float64 timestamp)
      ∧ (∀ s ∈ sends (collectResource w id), s.desc.isResource = true)
      ∧ (sends (collectStatus w id)).countP (fun s => s.desc = Desc.running_state) = 1
      ∧ ((sends (collectStatus w id)).countP (fun s => s.desc = Desc.start_time_seconds)
          = if state.Running = true ∧ (w.parseRFC3339Nano state.StartedAt).isSome = true
            then 1 else 0) := by
  obtain ⟨name, hn⟩ := getNameByInspect_text b hname
  have hres : ∀ s ∈ sends (collectResource w id), s.desc.isResource = true :=
    fun s hs => collectResource_sends w id s hs
  have hres1 : (sends (collectResource w id)).countP (fun s => s.desc = Desc.running_state)
      = 0 := by
    rw [List.countP_eq_zero]
    intro s hs
    have := hres s hs
    cases hd : s.desc <;> simp_all [Desc.isResource]
  have hres2 : (sends (collectResource w id)).countP
      (fun s => s.desc = Desc.start_time_seconds) = 0 := by
    rw [List.countP_eq_zero]
    intro s hs
    have := hres s hs
    cases hd : s.desc <;> simp_all [Desc.isResource]
  have heq : sends (collectStatus w id)
      = [⟨Desc.restart_count, toFloat64 b.RestartCount, [name]⟩,
          ⟨Desc.running_state,
            (if state.Running then Value.float64 1
              else if state.Restarting then Value.half else Value.float64 0), [name]⟩]
        ++ (if state.Running then
              (match w.parseRFC3339Nano state.StartedAt with
                | some timestamp =>
                  [⟨Desc.start_time_seconds, toFloat64 timestamp, [name]⟩]
                | none => [])
              ++ sends (collectResource w id)
            else []) := by
    unfold collectStatus
    simp only [hinspect, hn, hstate, andThen, Option.isSome_none, Bool.false_eq_true,
      if_false, List.not_mem_nil, List.nil_append, MustNewConstMetric_text,
      List.mem_singleton, reduceCtorEq]
    by_cases hr : state.Running = true
    · cases hp : w.parseRFC3339Nano state.StartedAt <;> simp [hr, sends, sends_append]
    · by_cases hs : state.Restarting = true <;> simp [hr, hs, sends]
  refine ⟨name, hn, heq, toFloat64_exact, hres, ?_, ?_⟩
  · rw [heq]
    by_cases hr : state.Running = true
    · cases hp : w.parseRFC3339Nano state.StartedAt <;>
        simp [hr, List.countP_cons, List.countP_append, hres1]
    · simp [hr, List.countP_cons]
  · rw [heq]
    by_cases hr : state.Running = true
    · cases hp : w.parseRFC3339Nano state.StartedAt <;>
        simp [hr, List.countP_cons, List.countP_append, hres2]
    · simp [hr, List.countP_cons]

theorem C5_collectStatus_witness :
    (sends (collectStatus healthyWorld exampleID)
        = [⟨Desc.restart_count, Value.float64 2, ["web"]⟩,
            ⟨Desc.running_state, Value.float64 1, ["web"]⟩,
            ⟨Desc.start_time_seconds, Value.float64 1577836800, ["web"]⟩]
          ++ sends (collectResource healthyWorld exampleID)
      ∧ ∃ name, getNameByInspect ⟨some exampleContainer⟩ = some (GoString.text name)
        ∧ (sends (collectStatus healthyWorld exampleID)).countP
            (fun s => s.desc = Desc.running_state) = 1)
    ∧ (sends (collectStatus (inspectWorld ⟨some namelessContainer⟩) exampleID)
        = [⟨Desc.restart_count, Value.float64 3, ["0123456789ab"]⟩,
            ⟨Desc.running_state, Value.half, ["0123456789ab"]⟩]
      ∧ ∃ name, getNameByInspect ⟨some namelessContainer⟩ = some (GoString.text name)
        ∧ (sends (collectStatus (inspectWorld ⟨some namelessContainer⟩) exampleID)).countP
            (fun s => s.desc = Desc.start_time_seconds) = 0) := by
  refine ⟨⟨by decide, ?_⟩, ⟨by decide, ?_⟩⟩
  · obtain ⟨name, h1, -, -, -, h2, -⟩ :=
      C5_collectStatus healthyWorld exampleID exampleContainer
        ⟨true, false, "2020-01-01T00:00:00Z"⟩ rfl rfl (Or.inl (by decide))
    exact ⟨name, h1, h2⟩
  · obtain ⟨name, h1, -, -, -, -, h2⟩ :=
      C5_collectStatus (inspectWorld ⟨some namelessContainer⟩) exampleID namelessContainer
        ⟨false, true, ""⟩ rfl rfl (Or.inr ⟨"0123456789ab", by decide, by decide⟩)
    exact ⟨name, h1, by simpa using h2⟩

/-! ## The claims on the resource metrics -/

/-- C8, as a counterexample: for two interfaces with `1 << 63` received bytes each the
network-in sample is 0, not the sum 18446744073709551616; for one interface with
`1 << 53 + 1` received bytes it is 9007199254740992 and for one with `1 << 64 - 1` it is
18446744073709551616; the parsed snapshot without name and
id, and the one without name whose ID is cut inside a character, make `collectResource`
panic before it sends any sample. -/
theorem C8_counterexample :
    (sends (collectResource (statsWorld overflowStats) exampleID)).filter
        (fun s => s.desc = Desc.network_in_bytes)
      = [⟨Desc.network_in_bytes, Value.float64 0, ["web"]⟩]
    ∧ ((overflowStats.Networks.getD []).map fun n => n.2.RxBytes).sum
      = 18446744073709551616
    ∧ (sends (collectResource (statsWorld roundingStats) exampleID)).filter
        (fun s => s.desc = Desc.network_in_bytes)
      = [⟨Desc.network_in_bytes, Value.float64 9007199254740992, ["web"]⟩]
    ∧ ((roundingStats.Networks.getD []).map fun n => n.2.RxBytes).sum
      = 9007199254740993
    ∧ (sends (collectResource (statsWorld maxStats) exampleID)).filter
        (fun s => s.desc = Desc.network_in_bytes)
      = [⟨Desc.network_in_bytes, Value.float64 18446744073709551616, ["web"]⟩]
    ∧ collectResource (statsWorld anonymousStats) exampleID = [Action.panic]
    ∧ collectResource (statsWorld cutIdStats) exampleID = [Action.panic] := by
  decide

/-- C8, amended: for a parsed snapshot whose name is not empty or whose ID begins with
characters of exactly twelve bytes, `collectResource` sends exactly one network-in and
one network-out sample; their values are float64 of the sums of RxBytes and of TxBytes
over the reported interfaces reduced modulo 2^64, which is that number itself when it is at
most 2^53, and both are 0 when the interface map is absent or empty. -/
theorem C8_network_sums (w : World) (id : String) (stats : StatsJSON)
    (hparsed : w.ContainerStats id = StatsResponse.parsed stats)
    (hname : stats.Name ≠ "" ∨ ∃ p : String, p.data <+: stats.ID.data ∧ len p = 12) :
    ∃ name, getNameByStatus stats = some (GoString.text name)
      ∧ (sends (collectResource w id)).filter (fun s => s.desc = Desc.network_in_bytes)
        = [⟨Desc.network_in_bytes,
            toFloat64 ((((stats.Networks.getD []).map fun n => n.2.RxBytes).sum
              % uint64Size : Nat)), [name]⟩]
      ∧ (sends (collectResource w id)).filter (fun s => s.desc = Desc.network_out_bytes)
        = [⟨Desc.network_out_bytes,
            toFloat64 ((((stats.Networks.getD []).map fun n => n.2.TxBytes).sum
              % uint64Size : Nat)), [name]⟩]
      ∧ (∀ n : Nat, n ≤ 2 ^ 53 → toFloat64 (n : Int) = Value.float64 (n : Int))
      ∧ ((stats.Networks = none ∨ stats.Networks = some []) →
          (sends (collectResource w id)).filter
              (fun s => s.desc = Desc.network_in_bytes
                ∨ s.desc = Desc.network_out_bytes)
            = [⟨Desc.network_in_bytes, Value.float64 0, [name]⟩,
                ⟨Desc.network_out_bytes, Value.float64 0, [name]⟩]) := by
  obtain ⟨name, hn⟩ := getNameByStatus_text stats hname
  have heq := collectResource_text w id stats name hparsed hn
  have hzero : toFloat64 0 = Value.float64 0 := by decide
  refine ⟨name, hn, ?_, ?_, ?_, ?_⟩
  · rw [heq]
    by_cases hblk : stats.IoServiceBytesRecursive.length = 0 <;>
      simp [hblk, List.filter_cons]
  · rw [heq]
    by_cases hblk : stats.IoServiceBytesRecursive.length = 0 <;>
      simp [hblk, List.filter_cons]
  · intro n hle
    exact toFloat64_exact (n : Int) (by simpa using hle)
  · intro hnet
    rw [heq]
    rcases hnet with hnet | hnet <;>
      by_cases hblk : stats.IoServiceBytesRecursive.length = 0 <;>
        simp [hblk, hnet, hzero, List.filter_cons]

theorem C8_network_sums_witness :
    (∃ name, getNameByStatus exampleStats = some (GoString.text name)
      ∧ (sends (collectResource healthyWorld exampleID)).filter
          (fun s => s.desc = Desc.network_in_bytes)
        = [⟨Desc.network_in_bytes, toFloat64 ((120 % uint64Size : Nat)), [name]⟩]
      ∧ (sends (collectResource healthyWorld exampleID)).filter
          (fun s => s.desc = Desc.network_out_bytes)
        = [⟨Desc.network_out_bytes, toFloat64 ((10 % uint64Size : Nat)), [name]⟩])
    ∧ (∃ name, getNameByStatus namelessStats = some (GoString.text name)
      ∧ (sends (collectResource (statsWorld namelessStats) exampleID)).filter
          (fun s => s.desc = Desc.network_in_bytes ∨ s.desc = Desc.network_out_bytes)
        = [⟨Desc.network_in_bytes, Value.float64 0, [name]⟩,
            ⟨Desc.network_out_bytes, Value.float64 0, [name]⟩]) := by
  constructor
  · obtain ⟨name, h1, h2, h3, -⟩ :=
      C8_network_sums healthyWorld exampleID exampleStats rfl (Or.inl (by decide))
    exact ⟨name, h1, h2, h3⟩
  · obtain ⟨name, h1, -, -, -, h2⟩ :=
      C8_network_sums (statsWorld namelessStats) exampleID namelessStats rfl
        (Or.inr ⟨"0123456789ab", by decide, by decide⟩)
    exact ⟨name, h1, h2 (Or.inl rfl)⟩

end DockerExporter
